import Mathlib

/-!
Shallow embedding of the volunteer engagement and retention pipeline
(`volunteer_activity.py`), together with theorems checking the spec claims.

Modelling conventions:
- tabular rows are Lean lists of structures;
- `pd.to_datetime(..., errors="coerce")` is external library code, so a raw
  row carries its parse outcome as an `Option DateTime` (`none` = `NaT`);
- float hours are embedded as `ℚ` (all arithmetic in the pipeline is
  sums, counts and divisions of finite tables, exact over `ℚ`);
- a missing cell (`NaN`) in the profile table is `Option.none`.
-/

/-- A parsed `DateVolunteered` timestamp: calendar date plus the second of
the day (the source parse format `%d/%m/%Y %I:%M:%S %p` carries a time). -/
structure DateTime where
  year : Int
  month : Nat
  day : Nat
  sec : Nat
deriving DecidableEq, Repr

/-- Gregorian leap-year rule, as used by pandas timestamps. -/
def isLeap (y : Int) : Bool :=
  (y % 4 == 0 && y % 100 != 0) || y % 400 == 0

def daysInYear (y : Int) : Int := if isLeap y then 366 else 365

/-- Days in the months strictly before month `m` (1-based), non-leap. -/
def cumDaysBefore (m : Nat) : Nat :=
  match m with
  | 1 => 0 | 2 => 31 | 3 => 59 | 4 => 90 | 5 => 120 | 6 => 151
  | 7 => 181 | 8 => 212 | 9 => 243 | 10 => 273 | 11 => 304 | 12 => 334
  | _ => 0

/-- 1-based ordinal of the date within its year. -/
def dayOfYear (d : DateTime) : Int :=
  (cumDaysBefore d.month : Int) +
    (if isLeap d.year && decide (2 < d.month) then 1 else 0) + (d.day : Int)

/-- `dt.month_name()`. -/
def monthName (m : Nat) : String :=
  match m with
  | 1 => "January" | 2 => "February" | 3 => "March" | 4 => "April"
  | 5 => "May" | 6 => "June" | 7 => "July" | 8 => "August"
  | 9 => "September" | 10 => "October" | 11 => "November" | 12 => "December"
  | _ => ""

/-- `dt.quarter`. -/
def quarterOfMonth (m : Nat) : Nat := (m - 1) / 3 + 1

/-- The fixed `SEASONS` map `{1: Winter, 2: Spring, 3: Summer, 4: Autumn}`. -/
def seasonOfQuarter (q : Nat) : String :=
  match q with
  | 1 => "Winter" | 2 => "Spring" | 3 => "Summer" | 4 => "Autumn" | _ => ""

/-- A raw shift row after column rename: the date field holds the outcome of
the coercing parse (`none` models `NaT`). -/
structure RawShift where
  volunteerId : Nat
  date : Option DateTime
  hours : ℚ
  category : String
  subCategory : String
deriving DecidableEq, Repr

/-- A cleaned shift record: the parsed date is present by construction. -/
structure Shift where
  volunteerId : Nat
  date : DateTime
  hours : ℚ
  category : String
  subCategory : String
deriving DecidableEq, Repr

/-- The derived `Year` column. -/
def Shift.year (s : Shift) : Int := s.date.year

/-- The derived `Month` column. -/
def Shift.month (s : Shift) : String := monthName s.date.month

/-- The derived `Season` column. -/
def Shift.season (s : Shift) : String := seasonOfQuarter (quarterOfMonth s.date.month)

def rawYear (r : RawShift) : Option Int := r.date.map DateTime.year

/-- `df.dropna(subset=["DateVolunteered"])`. -/
def dropNullDates (rows : List RawShift) : List RawShift :=
  rows.filter (fun r => r.date.isSome)

/-- `df = df[df["Year"] != 2016]`; a row with a `NaT` date has a `NaN` year,
and `NaN != 2016` holds in pandas, so such a row is kept by this filter. -/
def dropYear2016 (rows : List RawShift) : List RawShift :=
  rows.filter (fun r => rawYear r != some 2016)

/-- `df = df[df["Hours"] <= 16]`. -/
def dropHoursOver16 (rows : List RawShift) : List RawShift :=
  rows.filter (fun r => decide (r.hours ≤ 16))

def excludedSubCategory : String := "Holiday & Seasonal Meal Programs"

/-- `df = df[df["SubCategory"] != "Holiday & Seasonal Meal Programs"]`. -/
def dropExcludedSubcat (rows : List RawShift) : List RawShift :=
  rows.filter (fun r => r.subCategory != excludedSubCategory)

def typoCategory : String := "Market/Ware house Operation"

/-- One row of the `Category.replace({...})` fix. -/
def renameFn (r : RawShift) : RawShift :=
  if r.category = typoCategory then { r with category := "Market/Warehouse" } else r

/-- `df["Category"] = df["Category"].replace({...})`. -/
def renameCategory (rows : List RawShift) : List RawShift :=
  rows.map renameFn

/-- The cleaning chain of `load_and_clean_hours`, in the implemented order:
drop unparseable dates, category rename, year filter, hours filter,
subcategory filter. -/
def cleanRows (rows : List RawShift) : List RawShift :=
  dropExcludedSubcat (dropHoursOver16 (dropYear2016 (renameCategory (dropNullDates rows))))

/-- `load_and_clean_hours`, producing records whose date is present. -/
def loadAndCleanHours (rows : List RawShift) : List Shift :=
  (cleanRows rows).filterMap (fun r =>
    r.date.map (fun d => ⟨r.volunteerId, d, r.hours, r.category, r.subCategory⟩))

example : dayOfYear ⟨2023, 6, 1, 0⟩ = 152 := by decide
example : dayOfYear ⟨2024, 3, 1, 0⟩ = 61 := by decide
example : daysInYear 2023 = 365 := by decide

/-! ### Shared metric helpers -/

/-- `sorted(df["Year"].unique())` (an insertion sort embeds the sorting;
the sorted keys are distinct, so the ordering is the same as the one the
library sort produces). -/
def sortedUniqueYears (years : List Int) : List Int :=
  years.dedup.insertionSort (· ≤ ·)

def yearsOf (df : List Shift) : List Int := df.map Shift.year

/-- `df[df["Year"] == yr]`. -/
def shiftsInYear (df : List Shift) (yr : Int) : List Shift :=
  df.filter (fun r => r.date.year == yr)

/-- Distinct volunteer ids, in first-appearance order. -/
def volunteerIds (rs : List Shift) : List Nat :=
  (rs.map Shift.volunteerId).dedup

def totalHoursOf (rs : List Shift) (v : Nat) : ℚ :=
  ((rs.filter (fun r => r.volunteerId == v)).map Shift.hours).sum

/-- `groupby("Volunteer ID")["Hours"].sum()`: one entry per distinct id. -/
def perVolTotals (rs : List Shift) : List (Nat × ℚ) :=
  (volunteerIds rs).map (fun v => (v, totalHoursOf rs v))

/-! ### Top 20% concentration (`compute_top20_engagement`) -/

/-- Descending order on total hours. -/
def descRel (a b : Nat × ℚ) : Prop := b.2 ≤ a.2

instance : DecidableRel descRel := fun a b => inferInstanceAs (Decidable (b.2 ≤ a.2))

instance : IsTotal (Nat × ℚ) descRel := ⟨fun a b => le_total b.2 a.2⟩

instance : IsTrans (Nat × ℚ) descRel := ⟨fun _ _ _ h1 h2 => le_trans h2 h1⟩

/-- `.sort_values(ascending=False)` on the per-volunteer totals. -/
def sortedTotals (rs : List Shift) : List (Nat × ℚ) :=
  (perVolTotals rs).insertionSort descRel

def qMean (l : List ℚ) : ℚ := l.sum / l.length

structure TopRow where
  year : Int
  totalVolunteers : Nat
  topN : Nat
  totalHours : ℚ
  topHours : ℚ
  topSharePct : ℚ
  meanTop : ℚ
  meanOther : ℚ
deriving DecidableEq, Repr

/-- One iteration of the year loop in `compute_top20_engagement`; `none`
models the `continue` taken when the totals series is empty. -/
def top20RowFor (df : List Shift) (yr : Int) : Option TopRow :=
  let totals := sortedTotals (shiftsInYear df yr)
  if totals.isEmpty then none
  else
    let nVol := totals.length
    let topN := Nat.ceil ((0.20 : ℚ) * nVol)
    let top20 := (totals.take topN).map Prod.snd
    let other80 := (totals.drop topN).map Prod.snd
    some
      { year := yr
        totalVolunteers := nVol
        topN := topN
        totalHours := (totals.map Prod.snd).sum
        topHours := top20.sum
        topSharePct := top20.sum / (totals.map Prod.snd).sum * 100
        meanTop := qMean top20
        meanOther := if other80.length == 0 then 0 else qMean other80 }

def computeTop20Engagement (df : List Shift) : List TopRow :=
  (sortedUniqueYears (yearsOf df)).filterMap (top20RowFor df)

/-! ### Rolling retention (`compute_retention_rolling_6mo`) -/

/-- A lexicographic key ordering timestamps chronologically. -/
def dtKey (d : DateTime) : Int :=
  (d.year * 1000 + dayOfYear d) * 100000 + (d.sec : Int)

def laterDate (a b : DateTime) : DateTime := if dtKey a < dtKey b then b else a

/-- `groupby("Volunteer ID")["DateVolunteered"].max()` for one volunteer. -/
def lastShiftDate (rs : List Shift) (v : Nat) : Option DateTime :=
  match (rs.filter (fun r => r.volunteerId == v)).map Shift.date with
  | [] => none
  | d :: ds => some (ds.foldl laterDate d)

/-- `(pd.Timestamp(year=yr, month=12, day=31) - d).days`: the floor of the
timedelta from the timestamp to the year-end midnight, in days. -/
def inactivityDays (yr : Int) (d : DateTime) : Int :=
  Int.fdiv ((daysInYear yr - dayOfYear d) * 86400 - (d.sec : Int)) 86400

def trainingCategory : String := "Training"

/-- `df[df["Category"] != "Training"]`. -/
def nonTraining (df : List Shift) : List Shift :=
  df.filter (fun r => r.category != trainingCategory)

/-- The inactivity classification of one volunteer for one year row. -/
def volInactive (dfY : List Shift) (yr : Int) (v : Nat) : Bool :=
  match lastShiftDate dfY v with
  | none => false
  | some d => decide (inactivityDays yr d > 180)

structure RetRow where
  year : Int
  totalVolunteers : Nat
  activeVolunteers : Nat
  inactiveVolunteers : Nat
  activePct : ℚ
  inactivePct : ℚ
deriving DecidableEq, Repr

/-- One iteration of the year loop in `compute_retention_rolling_6mo`;
`none` models the `continue` on an empty year slice. -/
def retRowFor (dfNT : List Shift) (yr : Int) : Option RetRow :=
  let dfY := shiftsInYear dfNT yr
  if dfY.isEmpty then none
  else
    let vols := volunteerIds dfY
    let total := vols.length
    let inact := vols.countP (fun v => volInactive dfY yr v)
    let act := vols.countP (fun v => !volInactive dfY yr v)
    some
      { year := yr
        totalVolunteers := total
        activeVolunteers := act
        inactiveVolunteers := inact
        activePct := if total == 0 then 0 else (act : ℚ) / total * 100
        inactivePct := if total == 0 then 0 else (inact : ℚ) / total * 100 }

def computeRetentionRolling6mo (df : List Shift) : List RetRow :=
  (sortedUniqueYears (yearsOf (nonTraining df))).filterMap (retRowFor (nonTraining df))

/-! ### Growth decomposition (`compute_trends`, new vs returning) -/

/-- `groupby("Volunteer ID")["Year"].min()` for one volunteer. -/
def firstYearOf (dfNT : List Shift) (v : Nat) : Int :=
  (((dfNT.filter (fun r => r.volunteerId == v)).map Shift.year).min?).getD 0

/-- The index of `first_year.value_counts()`: the years that are some
volunteer's first year. -/
def newIndex (dfNT : List Shift) : List Int :=
  ((volunteerIds dfNT).map (firstYearOf dfNT)).dedup

/-- `first_year.value_counts()` at one year. -/
def newCount (dfNT : List Shift) (yr : Int) : Nat :=
  (volunteerIds dfNT).countP (fun v => firstYearOf dfNT v == yr)

/-- `new_by_year.reindex(active_by_year.index, fill_value=0)`: an explicit
zero for a year absent from the value-counts index. -/
def alignedNew (dfNT : List Shift) (yr : Int) : Nat :=
  if yr ∈ newIndex dfNT then newCount dfNT yr else 0

/-- `active_by_year` at one year: distinct active volunteers. -/
def activeCount (dfNT : List Shift) (yr : Int) : Nat :=
  (volunteerIds (shiftsInYear dfNT yr)).length

structure GrowthRow where
  year : Int
  activeVolunteers : Nat
  newVolunteers : Nat
  returningVolunteers : Int
  pctNew : ℚ
  pctReturning : ℚ
deriving DecidableEq, Repr

def growthRowFor (dfNT : List Shift) (yr : Int) : GrowthRow :=
  let act := activeCount dfNT yr
  let nw := alignedNew dfNT yr
  { year := yr
    activeVolunteers := act
    newVolunteers := nw
    returningVolunteers := (act : Int) - (nw : Int)
    pctNew := (nw : ℚ) / (act : ℚ) * 100
    pctReturning := (((act : Int) - (nw : Int) : Int) : ℚ) / (act : ℚ) * 100 }

/-- The `growth_explainer` table of `compute_trends`. -/
def computeGrowthExplainer (df : List Shift) : List GrowthRow :=
  (sortedUniqueYears (yearsOf (nonTraining df))).map (growthRowFor (nonTraining df))

/-! ### Seasonal and monthly averages (`compute_trends`) -/

/-- An unstacked `(Year × label)` table whose cells may be `NaN` (`none`). -/
structure AvgTable where
  rowKeys : List Int
  colKeys : List String
  cell : Int → String → Option ℚ

/-- A table after `fillna(0)`: every cell is a number. -/
structure QTable where
  rowKeys : List Int
  colKeys : List String
  cell : Int → String → ℚ

/-- Lexicographic strict order on code points (executable). -/
def charListLt : List Char → List Char → Bool
  | [], [] => false
  | [], _ :: _ => true
  | _ :: _, [] => false
  | a :: as, b :: bs => a < b || (a == b && charListLt as bs)

def strRel (a b : String) : Prop := charListLt b.data a.data = false

instance : DecidableRel strRel := fun a b =>
  inferInstanceAs (Decidable (charListLt b.data a.data = false))

/-- Unstacked column labels: the distinct label values, sorted. -/
def sortedUniqueStrs (l : List String) : List String :=
  l.dedup.insertionSort strRel

/-- `groupby(["Year", key])["Hours"].sum().unstack(fill_value=0)` at a cell. -/
def groupHours (df : List Shift) (key : Shift → String) (yr : Int) (c : String) : ℚ :=
  ((df.filter (fun r => r.date.year == yr && key r == c)).map Shift.hours).sum

/-- `groupby(["Year", key])["Volunteer ID"].nunique().unstack(fill_value=0)`
at a cell. -/
def groupVols (df : List Shift) (key : Shift → String) (yr : Int) (c : String) : Nat :=
  (volunteerIds (df.filter (fun r => r.date.year == yr && key r == c))).length

/-- The cellwise quotient of the two unstacked tables. A `0/0` cell (a group
with zero volunteers, hence zero hours — the two numerators come from the
same groups) is `NaN` (`none`); a populated cell is the exact quotient. -/
def avgTable (df : List Shift) (key : Shift → String) : AvgTable :=
  { rowKeys := sortedUniqueYears (yearsOf df)
    colKeys := sortedUniqueStrs (df.map key)
    cell := fun yr c =>
      let v := groupVols df key yr c
      if v == 0 then none else some (groupHours df key yr c / (v : ℚ)) }

/-- `.reindex(columns=cols)`: the column list is replaced; a column absent
from the source table reads as `NaN`. -/
def reindexCols (t : AvgTable) (cols : List String) : AvgTable :=
  { rowKeys := t.rowKeys
    colKeys := cols
    cell := fun r c => if c ∈ t.colKeys then t.cell r c else none }

/-- `.fillna(0)`. -/
def fillna0 (t : AvgTable) : QTable :=
  { rowKeys := t.rowKeys, colKeys := t.colKeys, cell := fun r c => (t.cell r c).getD 0 }

def MONTH_ORDER : List String :=
  ["January", "February", "March", "April", "May", "June", "July", "August",
   "September", "October", "November", "December"]

/-- `season_avg = (season_year_hours / season_year_vol).fillna(0)`. -/
def seasonAvgTable (df : List Shift) : QTable :=
  fillna0 (avgTable df Shift.season)

/-- `month_avg = (... / ...).reindex(columns=MONTH_ORDER).fillna(0)`. -/
def monthAvgTable (df : List Shift) : QTable :=
  fillna0 (reindexCols (avgTable df Shift.month) MONTH_ORDER)

/-! ### Character-list string primitives

The pipeline's free-text normalization is embedded over `List Char` (the
code points of the Python strings), with structural definitions. -/

/-- `pat` occurs at the start of `s`. -/
def patAt : List Char → List Char → Bool
  | [], _ => true
  | _ :: _, [] => false
  | p :: ps, c :: cs => p == c && patAt ps cs

/-- Python `pat in s` (for non-empty `pat`). -/
def containsPat (pat : List Char) : List Char → Bool
  | [] => patAt pat []
  | c :: cs => patAt pat (c :: cs) || containsPat pat cs

/-- Fuelled worker for `replacePat`; the fuel bounds the remaining length,
keeping the recursion structural. -/
def replacePatAux (pat rep : List Char) : Nat → List Char → List Char
  | _, [] => []
  | 0, s => s
  | fuel + 1, c :: cs =>
    if pat.length == 0 then c :: cs
    else if patAt pat (c :: cs) then
      rep ++ replacePatAux pat rep fuel (cs.drop (pat.length - 1))
    else c :: replacePatAux pat rep fuel cs

/-- Python `s.replace(pat, rep)`: every occurrence, leftmost first,
non-overlapping. -/
def replacePat (pat rep s : List Char) : List Char :=
  replacePatAux pat rep s.length s

/-- Python `s.endswith(pat)`. -/
def endsWithPat (pat s : List Char) : Bool :=
  patAt pat (s.drop (s.length - pat.length))

/-- Python `s.strip()` (ASCII whitespace suffices for this data). -/
def trimL (s : List Char) : List Char :=
  ((s.dropWhile Char.isWhitespace).reverse.dropWhile Char.isWhitespace).reverse

def lowerL (s : List Char) : List Char := s.map Char.toLower

/-- The characters before the first comma (`s.split(",")[0]`). -/
def takeUntilComma : List Char → List Char
  | [] => []
  | c :: cs => if c == ',' then [] else c :: takeUntilComma cs

/-! ### Profile normalization helpers -/

/-- Substring containment test (Python `pat in s`). -/
def containsSub (s pat : String) : Bool := containsPat pat.data s.data

def CITY_CANONICAL_MAP : List (String × String) :=
  [("mississauga", "Mississauga"), ("missisauga", "Mississauga"),
   ("mississauaga", "Mississauga"), ("mississouga", "Mississauga"),
   ("oakville", "Oakville"), ("toronto", "Toronto"), ("brampton", "Brampton"),
   ("burlington", "Burlington"), ("hamilton", "Hamilton"), ("vaughan", "Vaughan"),
   ("richmond hill", "Richmond Hill")]

/-- `if "," in s: s = s.split(",")[0].strip()`. -/
def stripCommaSegment (s : List Char) : List Char :=
  if containsPat [','] s then trimL (takeUntilComma s) else s

def citySuffixes : List (List Char) :=
  [" on".data, " ab".data, " bc".data, " can".data, " canada".data, " ontario".data]

/-- The suffix loop of `clean_city`; note the source uses `str.replace`,
which removes every occurrence of a matched suffix, not only the final one. -/
def stripSuffixes (s : List Char) : List Char :=
  citySuffixes.foldl (fun acc suf =>
    if endsWithPat suf acc then trimL (replacePat suf [] acc) else acc) s

/-- Python `str.title()`: a letter is upper-cased iff the previous character
is not a letter, and lower-cased otherwise. -/
def titleCaseAux : List Char → Bool → List Char
  | [], _ => []
  | c :: cs, prevAlpha =>
    (if c.isAlpha then (if prevAlpha then c.toLower else c.toUpper) else c) ::
      titleCaseAux cs c.isAlpha

def pyTitle (s : List Char) : List Char := titleCaseAux s false

/-- The normalization a city string undergoes before the branch on a
`"mis"` prefix, the synonym table and the title-case fallback:
`str(city).strip().lower()`, the comma split, then the suffix loop. -/
def normalizeCityKey (s : String) : String :=
  String.mk (stripSuffixes (stripCommaSegment (lowerL (trimL s.data))))

/-- `clean_city` on a non-null city value. -/
def cleanCityStr (s : String) : String :=
  let t := normalizeCityKey s
  if patAt "mis".data t.data then "Mississauga"
  else
    match CITY_CANONICAL_MAP.find? (fun p => p.1 == t) with
    | some p => p.2
    | none => String.mk (pyTitle t.data)

/-- `clean_city` (a `pd.isna` input propagates as `NaN`). -/
def cleanCity (c : Option String) : Option String := c.map cleanCityStr

/-- `clean_volunteer_status`. -/
def cleanVolunteerStatus (c : Option String) : String :=
  match c with
  | none => "Unknown"
  | some s0 =>
    let s := String.mk (lowerL (trimL s0.data))
    if containsSub s "applicant" then "Applicant"
    else if containsSub s "process" then "In Process"
    else if containsSub s "accepted" then "Accepted"
    else if containsSub s "inactive" then "Inactive"
    else if containsSub s "archived" then "Archived"
    else "Other"

/-- `extract_fsa`. -/
def extractFsa (c : Option String) : Option String :=
  match c with
  | none => none
  | some p =>
    let s := (replacePat [' '] [] p.data).map Char.toUpper
    if 3 ≤ s.length then some (String.mk (s.take 3)) else none

/-- `classify_language` (defined in the source; see the merge embedding for
where it is, and is not, applied). -/
def classifyLanguage (text : String) : String :=
  if trimL text.data == [] then "Other/Unknown"
  else
    let t := String.mk (lowerL text.data)
    let hasEnglish := containsSub t "english"
    let multi := [",", ";", " and ", "/"].any (fun sep => containsSub t sep)
    if hasEnglish && multi then "Multilingual"
    else if hasEnglish then "English only"
    else "Other/Unknown"

example : cleanCityStr "  Missisauga, ON" = "Mississauga" := by decide
example : cleanCityStr "MIS-Town" = "Mississauga" := by decide
example : cleanCityStr "oakville" = "Oakville" := by decide
example : cleanCityStr "milton" = "Milton" := by decide
example : classifyLanguage "English, French" = "Multilingual" := by decide
example : classifyLanguage "English" = "English only" := by decide
example : classifyLanguage "French" = "Other/Unknown" := by decide
example : cleanVolunteerStatus (some " In Process ") = "In Process" := by decide
example : extractFsa (some "l5b 4a1") = some "L5B" := by decide

/-! ### Profile table and `merge_volunteer_data`

A profile DataFrame is embedded column-wise: a list of named columns of
cells, where a cell is `Option String` (`none` = `NaN`). A `df[name]`
access on an absent column raises `KeyError`, embedded as `Except.error`
carrying the column name. -/

abbrev Cell := Option String

structure PTable where
  cols : List (String × List Cell)
deriving DecidableEq, Repr

def PTable.names (t : PTable) : List String := t.cols.map Prod.fst

def profileRenameMap : List (String × String) :=
  [("DatabaseUserId", "Volunteer ID"),
   ("CF - 2025 Update - Age Range (archived Nov 2025)", "Age Range"),
   ("CF - Skills & Experience - Languages spoken:", "Language"),
   ("YearsSinceVolunteerDateJoined", "YearsJoined")]

def renameName (n : String) : String :=
  ((profileRenameMap.find? (fun p => p.1 == n)).map Prod.snd).getD n

/-- `df_vol.rename(columns={...})`. -/
def PTable.rename (t : PTable) : PTable :=
  ⟨t.cols.map (fun pc => (renameName pc.1, pc.2))⟩

def volCols : List String :=
  ["Volunteer ID", "City", "PostalCode", "Province", "Country",
   "YearsJoined", "VolunteerStatus", "Age Range", "Language"]

def PTable.getCol (t : PTable) (n : String) : Option (List Cell) :=
  (t.cols.find? (fun pc => pc.1 == n)).map Prod.snd

/-- `df_vol[[c for c in vol_cols if c in df_vol.columns]]`. -/
def PTable.project (t : PTable) (names : List String) : PTable :=
  ⟨names.filterMap (fun n => (t.getCol n).map (fun v => (n, v)))⟩

/-- `df[n] = df[n].apply(f)`: `KeyError` when the column is absent. -/
def PTable.applyCol (t : PTable) (n : String) (f : Cell → Cell) : Except String PTable :=
  match t.getCol n with
  | none => .error n
  | some _ => .ok ⟨t.cols.map (fun pc => if pc.1 == n then (pc.1, pc.2.map f) else pc)⟩

/-- `df[new] = df[src].apply(f)` for a fresh column name `new`. -/
def PTable.addColFrom (t : PTable) (new src : String) (f : Cell → Cell) :
    Except String PTable :=
  match t.getCol src with
  | none => .error src
  | some v => .ok ⟨t.cols ++ [(new, v.map f)]⟩

def PTable.nRows (t : PTable) : Nat :=
  match t.cols with
  | [] => 0
  | c :: _ => c.2.length

def PTable.rowCell (t : PTable) (i : Nat) (n : String) : Cell :=
  match t.getCol n with
  | none => none
  | some v => (v.get? i).getD none

/-- The profile rows matching a shift's volunteer id (profile ids are
numeric strings in the CSV; the join key compares them numerically). -/
def matchingRows (t : PTable) (vid : Nat) : List Nat :=
  (List.range t.nRows).filter (fun i => t.rowCell i "Volunteer ID" == some (toString vid))

/-- `df_hours.merge(df_vol, on="Volunteer ID", how="left")`: every shift row
is kept; each match contributes a row, and an unmatched shift keeps all
profile fields null. -/
def leftJoin (dfHours : List Shift) (t : PTable) : List (Shift × (String → Cell)) :=
  dfHours.flatMap (fun s =>
    match matchingRows t s.volunteerId with
    | [] => [(s, fun _ => (none : Cell))]
    | is => is.map (fun i => (s, fun n => t.rowCell i n)))

/-- The merged table: the retained profile column names, and one row per
joined (shift, profile) pair. -/
structure Merged where
  profNames : List String
  rows : List (Shift × (String → Cell))

/-- `merge_volunteer_data`. -/
def mergeVolunteerData (dfHours : List Shift) (rawProfiles : PTable) :
    Except String Merged := do
  let t0 := rawProfiles.rename
  let t1 := t0.project volCols
  let t2 ← t1.applyCol "City" cleanCity
  let t3 ← t2.applyCol "VolunteerStatus" (fun c => some (cleanVolunteerStatus c))
  let t4 ← t3.addColFrom "FSA" "PostalCode" extractFsa
  return ⟨t4.names, leftJoin dfHours t4⟩

/-! ## Claim theorems -/

lemma renameFn_date (r : RawShift) : (renameFn r).date = r.date := by
  unfold renameFn; split <;> rfl

lemma renameFn_hours (r : RawShift) : (renameFn r).hours = r.hours := by
  unfold renameFn; split <;> rfl

lemma renameFn_subCategory (r : RawShift) : (renameFn r).subCategory = r.subCategory := by
  unfold renameFn; split <;> rfl

lemma renameFn_volunteerId (r : RawShift) : (renameFn r).volunteerId = r.volunteerId := by
  unfold renameFn; split <;> rfl

/-- C6: every record surviving the cleaning chain has a successfully parsed
(non-null) date, hours at most 16, a year other than 2016, and a
subcategory other than the excluded one. -/
theorem c6_cleaning_invariant (rows : List RawShift) (s : Shift)
    (hs : s ∈ loadAndCleanHours rows) :
    s.hours ≤ 16 ∧ s.year ≠ 2016 ∧ s.subCategory ≠ excludedSubCategory ∧
    ∃ r ∈ rows, r.date = some s.date := by
  simp only [loadAndCleanHours, List.mem_filterMap] at hs
  obtain ⟨r, hr, hmap⟩ := hs
  rw [Option.map_eq_some'] at hmap
  obtain ⟨d, hd, hsd⟩ := hmap
  simp only [cleanRows, dropExcludedSubcat, dropHoursOver16, dropYear2016,
    renameCategory, dropNullDates, List.mem_filter, List.mem_map] at hr
  obtain ⟨⟨⟨⟨r0, hr0, hren⟩, hyear⟩, hhours⟩, hsub⟩ := hr
  have hdate0 : r0.date = r.date := by rw [← hren, renameFn_date]
  refine ⟨?_, ?_, ?_, r0, hr0.1, ?_⟩
  · have := of_decide_eq_true hhours
    rw [← hsd]; exact this
  · have hne : rawYear r ≠ some 2016 := by
      intro hcon
      rw [hcon] at hyear
      simp at hyear
    rw [← hsd]
    intro hcon
    apply hne
    rw [rawYear, hd]
    exact congrArg some hcon
  · have hne := (bne_iff_ne (a := r.subCategory) (b := excludedSubCategory)).mp hsub
    rw [← hsd]; exact hne
  · rw [hdate0, hd, ← hsd]

def dtJan10 : DateTime := ⟨2023, 1, 10, 0⟩

def rowsW6 : List RawShift := [⟨1, some dtJan10, 4, "Food Sort", "General"⟩]

def shiftW6 : Shift := ⟨1, dtJan10, 4, "Food Sort", "General"⟩

/-- Witness for C6 at a concrete one-row input. -/
theorem c6_witness :
    shiftW6 ∈ loadAndCleanHours rowsW6 ∧
    (shiftW6.hours ≤ 16 ∧ shiftW6.year ≠ 2016 ∧
      shiftW6.subCategory ≠ excludedSubCategory ∧
      ∃ r ∈ rowsW6, r.date = some shiftW6.date) :=
  ⟨by decide, c6_cleaning_invariant rowsW6 shiftW6 (by decide)⟩

lemma filter_filter_comm (p q : RawShift → Bool) (l : List RawShift) :
    (l.filter p).filter q = (l.filter q).filter p := by
  induction l with
  | nil => rfl
  | cons a l ih =>
    by_cases hp : p a <;> by_cases hq : q a <;>
      simp [List.filter_cons, hp, hq, ih]

lemma renameCategory_filter (p : RawShift → Bool) (hp : ∀ r, p (renameFn r) = p r)
    (l : List RawShift) :
    renameCategory (l.filter p) = (renameCategory l).filter p := by
  induction l with
  | nil => rfl
  | cons a l ih =>
    by_cases hpa : p a <;>
      simp [renameCategory, List.filter_cons, hp, hpa, ih] <;>
      simpa [renameCategory] using ih

lemma renameFn_keepNull (r : RawShift) : (renameFn r).date.isSome = r.date.isSome := by
  rw [renameFn_date]

lemma renameFn_keepYear (r : RawShift) :
    (rawYear (renameFn r) != some 2016) = (rawYear r != some 2016) := by
  rw [rawYear, rawYear, renameFn_date]

lemma renameFn_keepHours (r : RawShift) :
    decide ((renameFn r).hours ≤ 16) = decide (r.hours ≤ 16) := by
  rw [renameFn_hours]

lemma renameFn_keepSubcat (r : RawShift) :
    ((renameFn r).subCategory != excludedSubCategory) =
      (r.subCategory != excludedSubCategory) := by
  rw [renameFn_subCategory]

lemma commute_of_comp {f g : Function.End (List RawShift)}
    (h : ∀ l, f (g l) = g (f l)) : Commute f g :=
  funext h

/-- The five cleaning steps, as elements of the monoid of endofunctions of
the row list (so that applying a permutation of them is the product of the
permuted list). -/
def cleaningSteps : List (Function.End (List RawShift)) :=
  [dropExcludedSubcat, dropHoursOver16, dropYear2016, renameCategory, dropNullDates]

lemma cleaningSteps_commute : cleaningSteps.Pairwise Commute := by
  refine List.Pairwise.cons ?_ (List.Pairwise.cons ?_ (List.Pairwise.cons ?_
    (List.Pairwise.cons ?_ (List.Pairwise.cons ?_ List.Pairwise.nil))))
  · intro b hb
    simp only [List.mem_cons, List.not_mem_nil, or_false] at hb
    rcases hb with rfl | rfl | rfl | rfl
    · exact commute_of_comp (fun l => filter_filter_comm _ _ l)
    · exact commute_of_comp (fun l => filter_filter_comm _ _ l)
    · exact commute_of_comp (fun l =>
        (renameCategory_filter _ renameFn_keepSubcat l).symm)
    · exact commute_of_comp (fun l => filter_filter_comm _ _ l)
  · intro b hb
    simp only [List.mem_cons, List.not_mem_nil, or_false] at hb
    rcases hb with rfl | rfl | rfl
    · exact commute_of_comp (fun l => filter_filter_comm _ _ l)
    · exact commute_of_comp (fun l =>
        (renameCategory_filter _ renameFn_keepHours l).symm)
    · exact commute_of_comp (fun l => filter_filter_comm _ _ l)
  · intro b hb
    simp only [List.mem_cons, List.not_mem_nil, or_false] at hb
    rcases hb with rfl | rfl
    · exact commute_of_comp (fun l =>
        (renameCategory_filter _ renameFn_keepYear l).symm)
    · exact commute_of_comp (fun l => filter_filter_comm _ _ l)
  · intro b hb
    simp only [List.mem_cons, List.not_mem_nil, or_false] at hb
    rcases hb with rfl
    exact commute_of_comp (fun l => renameCategory_filter _ renameFn_keepNull l)
  · intro b hb
    simp at hb

/-- C7: applying the five cleaning steps in any order yields the same rows
as the implemented order of `load_and_clean_hours`. -/
theorem c7_filters_commute (l : List (Function.End (List RawShift)))
    (hl : l.Perm cleaningSteps) (rows : List RawShift) :
    l.prod rows = cleanRows rows := by
  have hpair : l.Pairwise Commute :=
    (List.Perm.pairwise_iff (fun h => h.symm) hl).mpr cleaningSteps_commute
  have hprod : l.prod = cleaningSteps.prod := List.Perm.prod_eq' hl hpair
  rw [hprod]
  rfl

def rowsW7 : List RawShift :=
  [⟨1, some dtJan10, 4, "Market/Ware house Operation", "General"⟩,
   ⟨2, none, 3, "Food Sort", "General"⟩,
   ⟨3, some ⟨2016, 5, 1, 0⟩, 2, "Food Sort", "General"⟩,
   ⟨4, some dtJan10, 20, "Food Sort", "General"⟩,
   ⟨5, some dtJan10, 3, "Food Sort", "Holiday & Seasonal Meal Programs"⟩]

/-- Witness for C7: a transposed order of the steps applied to a concrete
input, with the cleaned rows evaluated. -/
theorem c7_witness :
    ([dropHoursOver16, dropExcludedSubcat, dropYear2016, renameCategory, dropNullDates] :
        List (Function.End (List RawShift))).prod rowsW7 = cleanRows rowsW7 ∧
    cleanRows rowsW7 = [⟨1, some dtJan10, 4, "Market/Warehouse", "General"⟩] :=
  ⟨c7_filters_commute _ (List.Perm.swap _ _ _) rowsW7, by decide⟩

lemma mem_sortedUniqueYears_iff (df : List Shift) (yr : Int) :
    yr ∈ sortedUniqueYears (yearsOf df) ↔ ∃ s ∈ df, s.year = yr := by
  simp [sortedUniqueYears, yearsOf, List.mem_insertionSort, List.mem_dedup, eq_comm]

lemma shiftsInYear_ne_nil {df : List Shift} {yr : Int} (h : ∃ s ∈ df, s.year = yr) :
    shiftsInYear df yr ≠ [] := by
  obtain ⟨s, hs, hy⟩ := h
  have : s ∈ shiftsInYear df yr := by
    simp only [shiftsInYear, List.mem_filter, beq_iff_eq]
    exact ⟨hs, hy⟩
  exact List.ne_nil_of_mem this

lemma sortedTotals_ne_nil {rs : List Shift} (h : rs ≠ []) : sortedTotals rs ≠ [] := by
  have h1 : rs.map Shift.volunteerId ≠ [] := by
    simpa using h
  have h2 : volunteerIds rs ≠ [] := by
    rw [volunteerIds, Ne, List.dedup_eq_nil]
    exact h1
  have h3 : perVolTotals rs ≠ [] := by
    rw [perVolTotals]
    simpa using h2
  rw [sortedTotals, Ne, ← List.length_eq_zero, List.length_insertionSort,
    List.length_eq_zero]
  exact h3

lemma top20RowFor_isSome_year {df : List Shift} {yr : Int} (h : ∃ s ∈ df, s.year = yr) :
    ∃ row, top20RowFor df yr = some row ∧ row.year = yr := by
  have hne : sortedTotals (shiftsInYear df yr) ≠ [] :=
    sortedTotals_ne_nil (shiftsInYear_ne_nil h)
  rw [top20RowFor]
  have hempty : (sortedTotals (shiftsInYear df yr)).isEmpty = false := by
    rw [List.isEmpty_eq_false]
    exact hne
  rw [hempty]
  exact ⟨_, rfl, rfl⟩

lemma filterMap_top20_year (df : List Shift) (L : List Int)
    (h : ∀ yr ∈ L, ∃ row, top20RowFor df yr = some row ∧ row.year = yr) :
    (L.filterMap (top20RowFor df)).map TopRow.year = L := by
  induction L with
  | nil => rfl
  | cons a L ih =>
    obtain ⟨row, hrow, hyear⟩ := h a (List.mem_cons_self a L)
    rw [List.filterMap_cons, hrow, List.map_cons, hyear,
      ih (fun yr hyr => h yr (List.mem_cons_of_mem a hyr))]

/-- C10: the Top-20% table has exactly one row per distinct year of the
cleaned input, and the guard that skips a year with an empty totals series
never fires for a year drawn from the table. -/
theorem c10_top20_one_row_per_year (df : List Shift) :
    (computeTop20Engagement df).map TopRow.year = sortedUniqueYears (yearsOf df) ∧
    ((computeTop20Engagement df).map TopRow.year).Nodup ∧
    (∀ yr : Int, yr ∈ (computeTop20Engagement df).map TopRow.year ↔
      ∃ s ∈ df, s.year = yr) ∧
    (∀ yr ∈ sortedUniqueYears (yearsOf df), (top20RowFor df yr).isSome) := by
  have hall : ∀ yr ∈ sortedUniqueYears (yearsOf df),
      ∃ row, top20RowFor df yr = some row ∧ row.year = yr :=
    fun yr hyr => top20RowFor_isSome_year ((mem_sortedUniqueYears_iff df yr).mp hyr)
  have hmap : (computeTop20Engagement df).map TopRow.year =
      sortedUniqueYears (yearsOf df) :=
    filterMap_top20_year df _ hall
  refine ⟨hmap, ?_, ?_, ?_⟩
  · rw [hmap, sortedUniqueYears]
    exact (List.perm_insertionSort _ _).nodup_iff.mpr (List.nodup_dedup _)
  · intro yr
    rw [hmap]
    exact mem_sortedUniqueYears_iff df yr
  · intro yr hyr
    obtain ⟨row, hrow, _⟩ := hall yr hyr
    simp [hrow]

lemma sum_take_drop_snd (T : List (Nat × ℚ)) (K : Nat) :
    ((T.take K).map Prod.snd).sum + ((T.drop K).map Prod.snd).sum =
      (T.map Prod.snd).sum := by
  rw [← List.sum_append, ← List.map_append, List.take_append_drop]

/-- C2: in every emitted Top-20% row, `top_n` is `ceil(0.20 × N)` for `N`
the distinct volunteer count of that year, the top segment is a longest
descending-by-hours segment of length `top_n`, the top and remainder hours
sum to the total hours, and the remainder mean is reported as 0 when that
segment is empty. -/
theorem c2_top20_row_spec (df : List Shift) (row : TopRow)
    (h : row ∈ computeTop20Engagement df) :
    row.topN = Nat.ceil ((0.20 : ℚ) * (row.totalVolunteers : ℚ)) ∧
    row.totalVolunteers = (volunteerIds (shiftsInYear df row.year)).length ∧
    (sortedTotals (shiftsInYear df row.year)).Perm
      (perVolTotals (shiftsInYear df row.year)) ∧
    (∀ a ∈ (sortedTotals (shiftsInYear df row.year)).take row.topN,
      ∀ b ∈ (sortedTotals (shiftsInYear df row.year)).drop row.topN, b.2 ≤ a.2) ∧
    row.topHours =
      (((sortedTotals (shiftsInYear df row.year)).take row.topN).map Prod.snd).sum ∧
    row.topHours +
      (((sortedTotals (shiftsInYear df row.year)).drop row.topN).map Prod.snd).sum =
      row.totalHours ∧
    ((sortedTotals (shiftsInYear df row.year)).drop row.topN = [] →
      row.meanOther = 0) := by
  simp only [computeTop20Engagement, List.mem_filterMap] at h
  obtain ⟨yr, hyr, hrow⟩ := h
  simp only [top20RowFor] at hrow
  split at hrow
  · cases hrow
  · obtain rfl := Option.some.inj hrow
    refine ⟨rfl, ?_, ?_, ?_, rfl, ?_, ?_⟩
    · show (sortedTotals (shiftsInYear df yr)).length = _
      rw [sortedTotals, List.length_insertionSort, perVolTotals, List.length_map]
    · exact List.perm_insertionSort _ _
    · have hsorted : (sortedTotals (shiftsInYear df yr)).Pairwise descRel :=
        List.sorted_insertionSort descRel _
      intro a ha b hb
      have hsplit := List.take_append_drop
        (Nat.ceil ((0.20 : ℚ) * ((sortedTotals (shiftsInYear df yr)).length : ℚ)))
        (sortedTotals (shiftsInYear df yr))
      rw [← hsplit] at hsorted
      exact (List.pairwise_append.mp hsorted).2.2 a ha b hb
    · exact sum_take_drop_snd (sortedTotals (shiftsInYear df yr)) _
    · intro h0
      show (if (((sortedTotals (shiftsInYear df yr)).drop _).map Prod.snd).length == 0
        then (0 : ℚ) else _) = 0
      rw [h0]
      rfl

set_option maxRecDepth 4000

def dtJun1 : DateTime := ⟨2023, 6, 1, 0⟩

def dtJan15 : DateTime := ⟨2023, 1, 15, 0⟩

def dfW2 : List Shift :=
  [⟨1, dtJan10, 4, "Food Sort", "General"⟩,
   ⟨1, dtJun1, 6, "Food Sort", "General"⟩,
   ⟨2, dtJan15, 3, "Food Sort", "General"⟩]

def rowW2 : TopRow := ⟨2023, 2, 1, 13, 10, 1000 / 13, 10, 3⟩

/-- Witness for C2 at the worked example of the spec (two volunteers with
10 and 3 total hours in 2023). -/
theorem c2_witness :
    rowW2 ∈ computeTop20Engagement dfW2 ∧
    (rowW2.topN = Nat.ceil ((0.20 : ℚ) * (rowW2.totalVolunteers : ℚ)) ∧
     rowW2.totalVolunteers = (volunteerIds (shiftsInYear dfW2 rowW2.year)).length ∧
     (sortedTotals (shiftsInYear dfW2 rowW2.year)).Perm
       (perVolTotals (shiftsInYear dfW2 rowW2.year)) ∧
     (∀ a ∈ (sortedTotals (shiftsInYear dfW2 rowW2.year)).take rowW2.topN,
       ∀ b ∈ (sortedTotals (shiftsInYear dfW2 rowW2.year)).drop rowW2.topN, b.2 ≤ a.2) ∧
     rowW2.topHours =
       (((sortedTotals (shiftsInYear dfW2 rowW2.year)).take rowW2.topN).map Prod.snd).sum ∧
     rowW2.topHours +
       (((sortedTotals (shiftsInYear dfW2 rowW2.year)).drop rowW2.topN).map Prod.snd).sum =
       rowW2.totalHours ∧
     ((sortedTotals (shiftsInYear dfW2 rowW2.year)).drop rowW2.topN = [] →
       rowW2.meanOther = 0)) :=
  ⟨by with_unfolding_all decide, c2_top20_row_spec dfW2 rowW2 (by with_unfolding_all decide)⟩

lemma countP_not_add_countP (p : α → Bool) (l : List α) :
    l.countP (fun a => !p a) + l.countP p = l.length := by
  induction l with
  | nil => rfl
  | cons a l ih =>
    cases h : p a <;> simp [List.countP_cons, h, ← ih] <;> omega

lemma laterDate_cases (d e : DateTime) : laterDate d e = d ∨ laterDate d e = e := by
  unfold laterDate; split <;> simp

lemma foldl_laterDate_mem (d : DateTime) (ds : List DateTime) :
    ds.foldl laterDate d ∈ d :: ds := by
  induction ds generalizing d with
  | nil => simp
  | cons e ds ih =>
    rw [List.foldl_cons]
    have h := ih (laterDate d e)
    rcases List.mem_cons.mp h with h1 | h1
    · rcases laterDate_cases d e with h2 | h2 <;> rw [h1, h2] <;> simp
    · simp [List.mem_cons_of_mem, h1]

lemma foldl_laterDate_le (d : DateTime) (ds : List DateTime) :
    ∀ x ∈ d :: ds, dtKey x ≤ dtKey (ds.foldl laterDate d) := by
  induction ds generalizing d with
  | nil =>
    intro x hx
    simp only [List.mem_singleton] at hx
    rw [hx, List.foldl_nil]
  | cons e ds ih =>
    intro x hx
    rw [List.foldl_cons]
    have hkey : dtKey d ≤ dtKey (laterDate d e) ∧ dtKey e ≤ dtKey (laterDate d e) := by
      unfold laterDate
      split <;> constructor <;> omega
    rcases List.mem_cons.mp hx with h1 | hx1
    · rw [h1]
      exact le_trans hkey.1 (ih (laterDate d e) _ (List.mem_cons_self _ _))
    · rcases List.mem_cons.mp hx1 with h2 | hx2
      · rw [h2]
        exact le_trans hkey.2 (ih (laterDate d e) _ (List.mem_cons_self _ _))
      · exact ih (laterDate d e) x (List.mem_cons_of_mem _ hx2)

lemma lastShiftDate_spec {rs : List Shift} {v : Nat} {d : DateTime}
    (h : lastShiftDate rs v = some d) :
    (∃ r ∈ rs, r.volunteerId = v ∧ r.date = d) ∧
    ∀ r ∈ rs, r.volunteerId = v → dtKey r.date ≤ dtKey d := by
  rw [lastShiftDate] at h
  cases hm : (rs.filter (fun r => r.volunteerId == v)).map Shift.date with
  | nil => rw [hm] at h; cases h
  | cons d0 ds =>
    rw [hm] at h
    have hd : d = ds.foldl laterDate d0 := (Option.some.inj h).symm
    constructor
    · have hmem : d ∈ d0 :: ds := hd ▸ foldl_laterDate_mem d0 ds
      rw [← hm] at hmem
      obtain ⟨r, hr, hrd⟩ := List.mem_map.mp hmem
      have hr2 := List.mem_filter.mp hr
      exact ⟨r, hr2.1, by simpa using hr2.2, hrd⟩
    · intro r hr hrv
      have hmem : r.date ∈ d0 :: ds := by
        rw [← hm]
        exact List.mem_map_of_mem Shift.date
          (List.mem_filter.mpr ⟨hr, by simp [hrv]⟩)
      rw [hd]
      exact foldl_laterDate_le d0 ds r.date hmem

lemma lastShiftDate_isSome {rs : List Shift} {v : Nat} (h : v ∈ volunteerIds rs) :
    ∃ d, lastShiftDate rs v = some d := by
  rw [volunteerIds, List.mem_dedup, List.mem_map] at h
  obtain ⟨r, hr, hrv⟩ := h
  have hmem : r.date ∈ (rs.filter (fun r => r.volunteerId == v)).map Shift.date :=
    List.mem_map_of_mem Shift.date (List.mem_filter.mpr ⟨hr, by simp [hrv]⟩)
  rw [lastShiftDate]
  cases hm : (rs.filter (fun r => r.volunteerId == v)).map Shift.date with
  | nil => rw [hm] at hmem; cases hmem
  | cons d0 ds => exact ⟨_, rfl⟩

/-- C1: every retention row is over the non-Training slice of its year; its
total is the distinct active volunteer count, active and inactive counts
partition it, and a volunteer is counted inactive iff the floor of the
days from their latest shift timestamp of that year to December 31 exceeds
180. -/
theorem c1_retention_spec (df : List Shift) (row : RetRow)
    (h : row ∈ computeRetentionRolling6mo df) :
    row.totalVolunteers = (volunteerIds (shiftsInYear (nonTraining df) row.year)).length ∧
    row.activeVolunteers + row.inactiveVolunteers = row.totalVolunteers ∧
    row.inactiveVolunteers =
      (volunteerIds (shiftsInYear (nonTraining df) row.year)).countP
        (fun v => volInactive (shiftsInYear (nonTraining df) row.year) row.year v) ∧
    ∀ v ∈ volunteerIds (shiftsInYear (nonTraining df) row.year),
      (volInactive (shiftsInYear (nonTraining df) row.year) row.year v = true ↔
        ∃ d, lastShiftDate (shiftsInYear (nonTraining df) row.year) v = some d ∧
          (∃ r ∈ shiftsInYear (nonTraining df) row.year, r.volunteerId = v ∧ r.date = d) ∧
          (∀ r ∈ shiftsInYear (nonTraining df) row.year, r.volunteerId = v →
            dtKey r.date ≤ dtKey d) ∧
          inactivityDays row.year d > 180) := by
  simp only [computeRetentionRolling6mo, List.mem_filterMap] at h
  obtain ⟨yr, hyr, hrow⟩ := h
  simp only [retRowFor] at hrow
  split at hrow
  · cases hrow
  · obtain rfl := Option.some.inj hrow
    refine ⟨rfl, countP_not_add_countP _ _, rfl, ?_⟩
    intro v hv
    obtain ⟨d, hd⟩ := lastShiftDate_isSome hv
    constructor
    · intro hinact
      rw [volInactive, hd] at hinact
      refine ⟨d, hd, (lastShiftDate_spec hd).1, (lastShiftDate_spec hd).2, ?_⟩
      exact of_decide_eq_true hinact
    · rintro ⟨d2, hd2, _, _, hgt⟩
      rw [hd] at hd2
      obtain rfl := Option.some.inj hd2
      rw [volInactive, hd]
      exact decide_eq_true hgt

def dtDec1 : DateTime := ⟨2023, 12, 1, 0⟩

def dfW1 : List Shift :=
  [⟨1, dtJun1, 6, "Food Sort", "General"⟩,
   ⟨2, dtDec1, 3, "Food Sort", "General"⟩,
   ⟨3, dtJan10, 2, "Training", "General"⟩]

def rowW1 : RetRow := ⟨2023, 2, 1, 1, 50, 50⟩

/-- Witness for C1: volunteer 1 stops on June 1 (213 days before year end,
inactive), volunteer 2 works on December 1 (30 days, active), a Training
record is excluded. -/
theorem c1_witness :
    rowW1 ∈ computeRetentionRolling6mo dfW1 ∧
    (rowW1.totalVolunteers =
       (volunteerIds (shiftsInYear (nonTraining dfW1) rowW1.year)).length ∧
     rowW1.activeVolunteers + rowW1.inactiveVolunteers = rowW1.totalVolunteers ∧
     rowW1.inactiveVolunteers =
       (volunteerIds (shiftsInYear (nonTraining dfW1) rowW1.year)).countP
         (fun v => volInactive (shiftsInYear (nonTraining dfW1) rowW1.year) rowW1.year v) ∧
     ∀ v ∈ volunteerIds (shiftsInYear (nonTraining dfW1) rowW1.year),
       (volInactive (shiftsInYear (nonTraining dfW1) rowW1.year) rowW1.year v = true ↔
         ∃ d, lastShiftDate (shiftsInYear (nonTraining dfW1) rowW1.year) v = some d ∧
           (∃ r ∈ shiftsInYear (nonTraining dfW1) rowW1.year,
             r.volunteerId = v ∧ r.date = d) ∧
           (∀ r ∈ shiftsInYear (nonTraining dfW1) rowW1.year, r.volunteerId = v →
             dtKey r.date ≤ dtKey d) ∧
           inactivityDays rowW1.year d > 180)) :=
  ⟨by with_unfolding_all decide, c1_retention_spec dfW1 rowW1 (by with_unfolding_all decide)⟩

lemma firstYearOf_attained {dfNT : List Shift} {v : Nat} (h : v ∈ volunteerIds dfNT) :
    (∃ r ∈ dfNT, r.volunteerId = v ∧ r.year = firstYearOf dfNT v) ∧
    ∀ r2 ∈ dfNT, r2.volunteerId = v → firstYearOf dfNT v ≤ r2.year := by
  rw [volunteerIds, List.mem_dedup, List.mem_map] at h
  obtain ⟨r0, hr0, hr0v⟩ := h
  have hmem : r0.year ∈ (dfNT.filter (fun r => r.volunteerId == v)).map Shift.year :=
    List.mem_map_of_mem Shift.year (List.mem_filter.mpr ⟨hr0, by simp [hr0v]⟩)
  cases hmin : ((dfNT.filter (fun r => r.volunteerId == v)).map Shift.year).min? with
  | none =>
    rw [List.min?_eq_none_iff] at hmin
    rw [hmin] at hmem
    cases hmem
  | some m =>
    have hfy : firstYearOf dfNT v = m := by rw [firstYearOf, hmin]; rfl
    have hmemm := List.min?_mem (fun a b => min_choice a b) hmin
    have hle := (List.le_min?_iff (fun a b c => le_min_iff) hmin).mp le_rfl
    constructor
    · obtain ⟨r, hr, hry⟩ := List.mem_map.mp hmemm
      have hr2 := List.mem_filter.mp hr
      exact ⟨r, hr2.1, by simpa using hr2.2, by rw [hfy, hry]⟩
    · intro r2 hr2 hr2v
      rw [hfy]
      exact hle r2.year
        (List.mem_map_of_mem Shift.year (List.mem_filter.mpr ⟨hr2, by simp [hr2v]⟩))

lemma newCount_le_activeCount (dfNT : List Shift) (yr : Int) :
    newCount dfNT yr ≤ activeCount dfNT yr := by
  rw [newCount, List.countP_eq_length_filter, activeCount]
  have hnodup : ((volunteerIds dfNT).filter
      (fun v => firstYearOf dfNT v == yr)).Nodup :=
    (List.nodup_dedup _).filter _
  have hsub : ((volunteerIds dfNT).filter (fun v => firstYearOf dfNT v == yr)) ⊆
      volunteerIds (shiftsInYear dfNT yr) := by
    intro v hv
    have hv2 := List.mem_filter.mp hv
    have hfy : firstYearOf dfNT v = yr := by simpa using hv2.2
    obtain ⟨⟨r, hr, hrv, hry⟩, _⟩ := firstYearOf_attained hv2.1
    rw [volunteerIds, List.mem_dedup, List.mem_map]
    refine ⟨r, ?_, hrv⟩
    rw [shiftsInYear, List.mem_filter]
    exact ⟨hr, by simp [show r.date.year = yr by rw [← Shift.year, hry, hfy]]⟩
  exact (hnodup.subperm hsub).length_le

lemma alignedNew_eq_newCount (dfNT : List Shift) (yr : Int) :
    alignedNew dfNT yr = newCount dfNT yr := by
  rw [alignedNew]
  split
  · rfl
  · next hnot =>
    rw [newCount, List.countP_eq_zero.mpr]
    intro v hv
    simp only [beq_iff_eq]
    intro hfy
    exact hnot (by
      rw [newIndex, List.mem_dedup, List.mem_map]
      exact ⟨v, hv, hfy⟩)

lemma growth_map_year (df : List Shift) :
    (computeGrowthExplainer df).map GrowthRow.year =
      sortedUniqueYears (yearsOf (nonTraining df)) := by
  rw [computeGrowthExplainer, List.map_map]
  have hid : (GrowthRow.year ∘ growthRowFor (nonTraining df)) = id := by
    funext yr
    rfl
  rw [hid, List.map_id]

/-- C3: in every growth row, the new count is the number of distinct
volunteers whose first non-Training year is that year (with absent years
explicitly zero), returning is the arithmetic difference active − new,
hence new + returning = active and returning is never negative; every
volunteer's first active year lands in exactly one emitted year bucket. -/
theorem c3_growth_spec (df : List Shift) (row : GrowthRow)
    (h : row ∈ computeGrowthExplainer df) :
    row.newVolunteers =
      (volunteerIds (nonTraining df)).countP
        (fun v => firstYearOf (nonTraining df) v == row.year) ∧
    row.activeVolunteers =
      (volunteerIds (shiftsInYear (nonTraining df) row.year)).length ∧
    row.returningVolunteers =
      (row.activeVolunteers : Int) - (row.newVolunteers : Int) ∧
    (row.newVolunteers : Int) + row.returningVolunteers =
      (row.activeVolunteers : Int) ∧
    0 ≤ row.returningVolunteers ∧
    ∀ v ∈ volunteerIds (nonTraining df),
      ∃! yr : Int, yr ∈ (computeGrowthExplainer df).map GrowthRow.year ∧
        firstYearOf (nonTraining df) v = yr := by
  simp only [computeGrowthExplainer, List.mem_map] at h
  obtain ⟨yr, hyr, hrow⟩ := h
  obtain rfl := hrow.symm
  refine ⟨alignedNew_eq_newCount _ _, rfl, rfl, ?_, ?_, ?_⟩
  · show (alignedNew (nonTraining df) yr : Int) +
      ((activeCount (nonTraining df) yr : Int) - (alignedNew (nonTraining df) yr : Int)) =
      (activeCount (nonTraining df) yr : Int)
    omega
  · show (0 : Int) ≤
      (activeCount (nonTraining df) yr : Int) - (alignedNew (nonTraining df) yr : Int)
    have h1 := newCount_le_activeCount (nonTraining df) yr
    have h2 := alignedNew_eq_newCount (nonTraining df) yr
    omega
  · intro v hv
    refine ⟨firstYearOf (nonTraining df) v, ⟨?_, rfl⟩, fun y hy => hy.2.symm⟩
    rw [growth_map_year, mem_sortedUniqueYears_iff]
    obtain ⟨⟨r, hr, _, hry⟩, _⟩ := firstYearOf_attained hv
    exact ⟨r, hr, hry⟩

def dt2022 : DateTime := ⟨2022, 3, 4, 0⟩

def dfW3 : List Shift :=
  [⟨1, dt2022, 5, "Food Sort", "General"⟩,
   ⟨1, dtJun1, 6, "Food Sort", "General"⟩,
   ⟨2, dtJan15, 3, "Food Sort", "General"⟩]

def rowW3 : GrowthRow := ⟨2023, 2, 1, 1, 50, 50⟩

/-- Witness for C3: volunteer 1 first active in 2022 and returning in 2023,
volunteer 2 new in 2023. -/
theorem c3_witness :
    rowW3 ∈ computeGrowthExplainer dfW3 ∧
    (rowW3.newVolunteers =
       (volunteerIds (nonTraining dfW3)).countP
         (fun v => firstYearOf (nonTraining dfW3) v == rowW3.year) ∧
     rowW3.activeVolunteers =
       (volunteerIds (shiftsInYear (nonTraining dfW3) rowW3.year)).length ∧
     rowW3.returningVolunteers =
       (rowW3.activeVolunteers : Int) - (rowW3.newVolunteers : Int) ∧
     (rowW3.newVolunteers : Int) + rowW3.returningVolunteers =
       (rowW3.activeVolunteers : Int) ∧
     0 ≤ rowW3.returningVolunteers ∧
     ∀ v ∈ volunteerIds (nonTraining dfW3),
       ∃! yr : Int, yr ∈ (computeGrowthExplainer dfW3).map GrowthRow.year ∧
         firstYearOf (nonTraining dfW3) v = yr) :=
  ⟨by with_unfolding_all decide, c3_growth_spec dfW3 rowW3 (by with_unfolding_all decide)⟩

lemma groupVols_zero_filter_nil {df : List Shift} {key : Shift → String} {yr : Int}
    {c : String} (h : groupVols df key yr c = 0) :
    df.filter (fun r => r.date.year == yr && key r == c) = [] := by
  rw [groupVols, volunteerIds] at h
  have h1 := List.length_eq_zero.mp h
  rw [List.dedup_eq_nil, List.map_eq_nil_iff] at h1
  exact h1

lemma groupHours_zero {df : List Shift} {key : Shift → String} {yr : Int} {c : String}
    (h : groupVols df key yr c = 0) : groupHours df key yr c = 0 := by
  rw [groupHours, groupVols_zero_filter_nil h]
  rfl

lemma avgTable_cell_none {df : List Shift} {key : Shift → String} {yr : Int} {c : String}
    (h : groupVols df key yr c = 0) : (avgTable df key).cell yr c = none := by
  simp [avgTable, h]

lemma avgTable_cell_some {df : List Shift} {key : Shift → String} {yr : Int} {c : String}
    (h : groupVols df key yr c ≠ 0) :
    (avgTable df key).cell yr c =
      some (groupHours df key yr c / (groupVols df key yr c : ℚ)) := by
  simp [avgTable, h]

lemma mem_avgCols_of_vols_pos {df : List Shift} {key : Shift → String} {yr : Int}
    {c : String} (h : groupVols df key yr c ≠ 0) : c ∈ (avgTable df key).colKeys := by
  have hne : df.filter (fun r => r.date.year == yr && key r == c) ≠ [] := by
    intro hE
    exact h (by rw [groupVols, hE]; rfl)
  obtain ⟨r, hr⟩ := List.exists_mem_of_ne_nil _ hne
  have hr2 := List.mem_filter.mp hr
  have hkey : key r = c := by
    have h3 := hr2.2
    simp only [Bool.and_eq_true, beq_iff_eq] at h3
    exact h3.2
  show c ∈ sortedUniqueStrs (df.map key)
  rw [sortedUniqueStrs, List.mem_insertionSort, List.mem_dedup]
  exact hkey ▸ List.mem_map_of_mem key hr2.1

/-- C8: the monthly table's columns are exactly the twelve months in
January→December order for every input; every monthly or seasonal cell
whose group has zero distinct volunteers equals 0 (and its hour total is
also 0, so no nonzero/0 division arises), and every populated cell is the
group's total hours divided by its distinct volunteer count. -/
theorem c8_seasonal_monthly_spec (df : List Shift) :
    (monthAvgTable df).colKeys = MONTH_ORDER ∧
    (∀ yr : Int, ∀ m : String,
      (groupVols df Shift.month yr m = 0 →
        (monthAvgTable df).cell yr m = 0 ∧ groupHours df Shift.month yr m = 0) ∧
      (groupVols df Shift.month yr m ≠ 0 →
        (monthAvgTable df).cell yr m =
          groupHours df Shift.month yr m / (groupVols df Shift.month yr m : ℚ))) ∧
    (∀ yr : Int, ∀ c : String,
      (groupVols df Shift.season yr c = 0 →
        (seasonAvgTable df).cell yr c = 0 ∧ groupHours df Shift.season yr c = 0) ∧
      (groupVols df Shift.season yr c ≠ 0 →
        (seasonAvgTable df).cell yr c =
          groupHours df Shift.season yr c / (groupVols df Shift.season yr c : ℚ))) := by
  refine ⟨rfl, ?_, ?_⟩
  · intro yr m
    constructor
    · intro h0
      constructor
      · show ((if m ∈ (avgTable df Shift.month).colKeys
            then (avgTable df Shift.month).cell yr m else none)).getD 0 = 0
        rw [avgTable_cell_none h0]
        split <;> rfl
      · exact groupHours_zero h0
    · intro hpos
      show ((if m ∈ (avgTable df Shift.month).colKeys
          then (avgTable df Shift.month).cell yr m else none)).getD 0 = _
      rw [if_pos (mem_avgCols_of_vols_pos hpos), avgTable_cell_some hpos]
      rfl
  · intro yr c
    constructor
    · intro h0
      constructor
      · show ((avgTable df Shift.season).cell yr c).getD 0 = 0
        rw [avgTable_cell_none h0]
        rfl
      · exact groupHours_zero h0
    · intro hpos
      show ((avgTable df Shift.season).cell yr c).getD 0 = _
      rw [avgTable_cell_some hpos]
      rfl

/-- Witness for C8: on the worked example, January 2023 has two distinct
volunteers and 7 hours (cell 7/2), March 2023 has none (cell 0), and the
column list is the fixed month order. -/
theorem c8_witness :
    (monthAvgTable dfW2).colKeys = MONTH_ORDER ∧
    (monthAvgTable dfW2).cell 2023 "January" = 7 / 2 ∧
    (monthAvgTable dfW2).cell 2023 "March" = 0 ∧
    (seasonAvgTable dfW2).cell 2023 "Winter" = 7 / 2 :=
  ⟨(c8_seasonal_monthly_spec dfW2).1, by with_unfolding_all decide,
   by with_unfolding_all decide, by with_unfolding_all decide⟩

lemma patAt_iff_take (pat s : List Char) :
    patAt pat s = true ↔ s.take pat.length = pat := by
  induction pat generalizing s with
  | nil => simp [patAt]
  | cons p ps ih =>
    cases s with
    | nil => simp [patAt]
    | cons c cs =>
      rw [List.length_cons, List.take_succ_cons]
      constructor
      · intro h
        simp only [patAt, Bool.and_eq_true, beq_iff_eq] at h
        obtain ⟨h1, h2⟩ := h
        rw [← h1, (ih cs).mp h2]
      · intro h
        injection h with h1 h2
        simp only [patAt, Bool.and_eq_true, beq_iff_eq]
        exact ⟨h1.symm, (ih cs).mpr h2⟩

/-- C9: a non-null city whose normalized key starts with "mis" maps to
"Mississauga" (the prefix rule firing before the synonym table), a synonym
key maps to its canonical name, any remaining value is title-cased, and the
two worked examples of the spec evaluate as stated. -/
theorem c9_city_normalization (s : String) :
    ((normalizeCityKey s).data.take 3 = "mis".data → cleanCityStr s = "Mississauga") ∧
    (∀ canon : String × String, canon ∈ CITY_CANONICAL_MAP →
      normalizeCityKey s = canon.1 → (normalizeCityKey s).data.take 3 ≠ "mis".data →
      cleanCityStr s = canon.2) ∧
    ((normalizeCityKey s).data.take 3 ≠ "mis".data →
      (∀ canon ∈ CITY_CANONICAL_MAP, normalizeCityKey s ≠ canon.1) →
      cleanCityStr s = String.mk (pyTitle (normalizeCityKey s).data)) ∧
    cleanCityStr "  Missisauga, ON" = "Mississauga" ∧
    cleanCityStr "MIS-Town" = "Mississauga" := by
  refine ⟨?_, ?_, ?_, by decide, by decide⟩
  · intro h
    simp only [cleanCityStr]
    rw [if_pos ((patAt_iff_take "mis".data _).mpr h)]
  · intro canon hmem heq hneq
    have hpat : ¬ patAt "mis".data (normalizeCityKey s).data = true := by
      rw [patAt_iff_take]
      exact hneq
    have hfind : List.find? (fun p => p.1 == normalizeCityKey s) CITY_CANONICAL_MAP =
        some canon := by
      rw [heq]
      have hall : ∀ c ∈ CITY_CANONICAL_MAP,
          List.find? (fun p => p.1 == c.1) CITY_CANONICAL_MAP = some c := by decide
      exact hall canon hmem
    simp only [cleanCityStr]
    rw [if_neg hpat, hfind]
  · intro hneq hnotin
    have hpat : ¬ patAt "mis".data (normalizeCityKey s).data = true := by
      rw [patAt_iff_take]
      exact hneq
    have hfind : List.find? (fun p => p.1 == normalizeCityKey s) CITY_CANONICAL_MAP =
        none := by
      rw [List.find?_eq_none]
      intro x hx
      simp only [beq_iff_eq]
      exact fun hc => hnotin x hx hc.symm
    simp only [cleanCityStr]
    rw [if_neg hpat, hfind]

/-- Witness for C9: the prefix example and a synonym-table example, with
every hypothesis discharged on concrete strings. -/
theorem c9_witness :
    cleanCityStr "  Missisauga, ON" = "Mississauga" ∧
    cleanCityStr "Oakville, ON" = "Oakville" :=
  ⟨(c9_city_normalization "  Missisauga, ON").2.2.2.1,
   (c9_city_normalization "Oakville, ON").2.1 ("oakville", "Oakville")
     (by decide) (by decide) (by decide)⟩

def dfHW5 : List Shift := [⟨1, dtJan10, 4, "Food Sort", "General"⟩]

def profW5 : PTable :=
  ⟨[("DatabaseUserId", [some "1"]),
    ("City", [some "Toronto"]),
    ("PostalCode", [some "L5B 4A1"]),
    ("VolunteerStatus", [some "Accepted"]),
    ("CF - Skills & Experience - Languages spoken:", [some "French"])]⟩

/-- C5 (code bug): `classify_language` is never applied by
`merge_volunteer_data`, so the merged output keeps the raw language text.
At this input the merged language field is "French", which is not one of
the three classes, while the defined classifier would map it to
"Other/Unknown". -/
theorem c5_language_not_classified :
    ∃ m, mergeVolunteerData dfHW5 profW5 = Except.ok m ∧
      "Language" ∈ m.profNames ∧
      m.rows.map (fun row => row.2 "Language") = [some "French"] ∧
      "French" ∉ ["Multilingual", "English only", "Other/Unknown"] ∧
      classifyLanguage "French" = "Other/Unknown" :=
  ⟨_, rfl, by decide, rfl, by decide, by decide⟩

def profW4bad : PTable := ⟨[("DatabaseUserId", [some "1"])]⟩

/-- C4 counterexample: a profile table that has the volunteer-id column but
lacks the City column makes `merge_volunteer_data` raise a `KeyError`
(embedded as an error naming the missing column) instead of succeeding. -/
theorem c4_counterexample :
    mergeVolunteerData [] profW4bad = Except.error "City" := rfl

lemma getCol_isSome_iff (t : PTable) (n : String) :
    (t.getCol n).isSome = true ↔ n ∈ t.names := by
  rw [PTable.getCol, PTable.names, Option.isSome_map']
  rw [List.find?_isSome]
  constructor
  · rintro ⟨x, hx, hpx⟩
    exact List.mem_map.mpr ⟨x, hx, by simpa using hpx⟩
  · intro h
    obtain ⟨x, hx, hxn⟩ := List.mem_map.mp h
    exact ⟨x, hx, by simp [hxn]⟩

lemma project_names (t : PTable) (ns : List String) :
    (t.project ns).names = ns.filter (fun n => (t.getCol n).isSome) := by
  rw [PTable.project, PTable.names]
  induction ns with
  | nil => rfl
  | cons a ns ih =>
    rw [List.filterMap_cons, List.filter_cons]
    cases h : t.getCol a with
    | none => simp [h, ih]
    | some v => simp [h, ih]

lemma applyCol_ok {t : PTable} {n : String} {f : Cell → Cell} (h : n ∈ t.names) :
    ∃ t2, t.applyCol n f = Except.ok t2 ∧ t2.names = t.names := by
  rw [PTable.applyCol]
  cases hg : t.getCol n with
  | none =>
    have h2 := (getCol_isSome_iff t n).mpr h
    rw [hg] at h2
    cases h2
  | some v =>
    refine ⟨_, rfl, ?_⟩
    show (t.cols.map _).map Prod.fst = t.cols.map Prod.fst
    rw [List.map_map]
    refine List.map_congr_left (fun pc _ => ?_)
    show (if pc.1 == n then (pc.1, pc.2.map f) else pc).1 = pc.1
    split <;> rfl

lemma addColFrom_ok {t : PTable} {new src : String} {f : Cell → Cell}
    (h : src ∈ t.names) :
    ∃ t2, t.addColFrom new src f = Except.ok t2 ∧ t2.names = t.names ++ [new] := by
  rw [PTable.addColFrom]
  cases hg : t.getCol src with
  | none =>
    have h2 := (getCol_isSome_iff t src).mpr h
    rw [hg] at h2
    cases h2
  | some v =>
    refine ⟨_, rfl, ?_⟩
    show (t.cols ++ [(new, v.map f)]).map Prod.fst = _
    rw [List.map_append]
    rfl

/-- C4 amended: `merge_volunteer_data` tolerates the absence of any subset
of the recognized profile columns other than City, PostalCode and
VolunteerStatus (the three it unconditionally rewrites); with those three
present it succeeds, the result is projected to the recognized columns
actually present (plus the derived FSA column), and recognized columns
absent from the input are omitted from the result. -/
theorem c4_tolerates_missing_columns (dfHours : List Shift) (t : PTable)
    (hCity : "City" ∈ t.rename.names)
    (hStatus : "VolunteerStatus" ∈ t.rename.names)
    (hPostal : "PostalCode" ∈ t.rename.names) :
    ∃ m, mergeVolunteerData dfHours t = Except.ok m ∧
      m.profNames = volCols.filter (fun n => (t.rename.getCol n).isSome) ++ ["FSA"] ∧
      ∀ c ∈ volCols, c ∉ t.rename.names → c ∉ m.profNames := by
  have hproj : (t.rename.project volCols).names =
      volCols.filter (fun n => (t.rename.getCol n).isSome) :=
    project_names t.rename volCols
  have hmemProj : ∀ n ∈ volCols, n ∈ t.rename.names →
      n ∈ (t.rename.project volCols).names := by
    intro n hn hmem
    rw [hproj]
    exact List.mem_filter.mpr ⟨hn, (getCol_isSome_iff _ _).mpr hmem⟩
  obtain ⟨t2, h2, hn2⟩ :=
    applyCol_ok (f := cleanCity) (hmemProj "City" (by decide) hCity)
  obtain ⟨t3, h3, hn3⟩ :=
    applyCol_ok (t := t2) (f := fun c => some (cleanVolunteerStatus c))
      (by rw [hn2]; exact hmemProj "VolunteerStatus" (by decide) hStatus)
  obtain ⟨t4, h4, hn4⟩ :=
    @addColFrom_ok t3 "FSA" "PostalCode" extractFsa
      (by rw [hn3, hn2]; exact hmemProj "PostalCode" (by decide) hPostal)
  refine ⟨⟨t4.names, leftJoin dfHours t4⟩, ?_, ?_, ?_⟩
  · show (do
      let t2 ← (t.rename.project volCols).applyCol "City" cleanCity
      let t3 ← t2.applyCol "VolunteerStatus" (fun c => some (cleanVolunteerStatus c))
      let t4 ← t3.addColFrom "FSA" "PostalCode" extractFsa
      return (⟨t4.names, leftJoin dfHours t4⟩ : Merged)) = Except.ok _
    rw [h2]
    show (do
      let t3 ← t2.applyCol "VolunteerStatus" (fun c => some (cleanVolunteerStatus c))
      let t4 ← t3.addColFrom "FSA" "PostalCode" extractFsa
      return (⟨t4.names, leftJoin dfHours t4⟩ : Merged)) = Except.ok _
    rw [h3]
    show (do
      let t4 ← t3.addColFrom "FSA" "PostalCode" extractFsa
      return (⟨t4.names, leftJoin dfHours t4⟩ : Merged)) = Except.ok _
    rw [h4]
    rfl
  · show t4.names = _
    rw [hn4, hn3, hn2, hproj]
  · intro c hc hcnot
    show c ∉ t4.names
    rw [hn4, hn3, hn2, hproj]
    intro hmem
    rcases List.mem_append.mp hmem with hmem1 | hmem1
    · have h5 := List.mem_filter.mp hmem1
      exact hcnot ((getCol_isSome_iff _ _).mp h5.2)
    · have hfsa : c = "FSA" := by simpa using hmem1
      rw [hfsa] at hc
      exact absurd hc (by decide)

def profW4 : PTable :=
  ⟨[("DatabaseUserId", [some "7"]), ("City", [some "toronto"]),
    ("PostalCode", [some "M1A 1A1"]), ("VolunteerStatus", [Option.none])]⟩

/-- Witness for the amended C4 at a profile table carrying only the id and
the three required columns: the merge succeeds and the five other
recognized columns are absent from the result. -/
theorem c4_witness :
    ("City" ∈ profW4.rename.names ∧ "VolunteerStatus" ∈ profW4.rename.names ∧
      "PostalCode" ∈ profW4.rename.names) ∧
    (∃ m, mergeVolunteerData [] profW4 = Except.ok m ∧
      m.profNames = volCols.filter (fun n => (profW4.rename.getCol n).isSome) ++ ["FSA"] ∧
      ∀ c ∈ volCols, c ∉ profW4.rename.names → c ∉ m.profNames) :=
  ⟨⟨by decide, by decide, by decide⟩,
   c4_tolerates_missing_columns [] profW4 (by decide) (by decide) (by decide)⟩

/-- Witness for C10: on the worked example the emitted years are exactly
the one distinct year of the table. -/
theorem c10_witness :
    (computeTop20Engagement dfW2).map TopRow.year = sortedUniqueYears (yearsOf dfW2) ∧
    sortedUniqueYears (yearsOf dfW2) = [2023] :=
  ⟨(c10_top20_one_row_per_year dfW2).1, by with_unfolding_all decide⟩
